import Mathlib

/-!
# Mail relay bridge: `backend/mailgun/mailgun.go`

A shallow embedding of package `mailgun`: the session factory (`Backend`), the relay
session (`User`) and the per-recipient fan-out of `User.Send`.

The Go code is stateful, so every operation takes the process state (`World`) and
returns the new one.  The three collaborators that live outside the repository are
represented as follows.

* The metrics library: a counter family is a map from label value to count, kept in a
  heap of counter families addressed by pointer; the default registry is the list of the
  registered family names.
* The delivery client: an arbitrary state machine (`Remote`) that is shown the client,
  the context and the message of each `Send` call, and answers with a reply that also
  says how many bytes it pulled off the body stream and how long it took.
* The clock: a counter of nanoseconds, advanced by the delivery calls.

Every delivery call is recorded in `World.calls`, which is what the theorems about
"the calls made" speak of.
-/

namespace mailgun

/-! ## Values of the Go runtime and of the libraries -/

/-- Instants, in nanoseconds. -/
abbrev Time := Nat

/-- Durations (`time.Duration`), in nanoseconds. -/
abbrev Duration := Nat

/-- The constant `time.Second`. -/
def Second : Duration := 1000000000

/-- Go `error` values that occur: `fmt.Errorf` strings, `context.DeadlineExceeded`, and the
registry's `AlreadyRegisteredError` (carrying the family name). -/
inductive Error where
  | errorString (s : String)
  | DeadlineExceeded
  | AlreadyRegisteredError (fqName : String)
  deriving DecidableEq, Repr

/-- The call `fmt.Errorf(msg)` with a format that has no verbs. -/
def Errorf (msg : String) : Error := Error.errorString msg

/-- How a Go call ends: it returns a value or it panics. -/
inductive Outcome (α : Type) where
  | returned (a : α)
  | panicked (v : Error)
  deriving DecidableEq, Repr

/-- Contexts of package `context`, as far as deadlines go. -/
inductive Context where
  | Background
  | cancelCtx (parent : Context)
  | timerCtx (parent : Context) (deadline : Time)
  deriving DecidableEq, Repr

/-- The method `Context.Deadline`. -/
def Context.Deadline : Context → Option Time
  | Context.Background => none
  | Context.cancelCtx p => p.Deadline
  | Context.timerCtx _ d => some d

/-- The function `context.WithDeadline`: a parent that already ends earlier is only wrapped. -/
def WithDeadline (parent : Context) (d : Time) : Context :=
  match parent.Deadline with
  | some cur => if cur < d then Context.cancelCtx parent else Context.timerCtx parent d
  | none => Context.timerCtx parent d

/-- The function `context.WithTimeout`, called at instant `now`. -/
def WithTimeout (parent : Context) (timeout : Duration) (now : Time) : Context :=
  WithDeadline parent (now + timeout)

/-- An `io.Reader` over a finite stream: the bytes not yet read. Reading is single pass. -/
abbrev Reader := List UInt8

/-- A counter family with one label (`prometheus.CounterVec`): label value to count. -/
abbrev CounterVec := String → Nat

/-- Pointer to a counter family in the heap. -/
abbrev CounterVecPtr := Nat

/-- Options of a counter family (`prometheus.CounterOpts`). -/
structure CounterOpts where
  Name : String
  Help : String
  deriving DecidableEq, Repr

/-- The delivery client built by `mg.NewMailgun`. -/
structure Mailgun where
  domain : String
  apiKey : String
  deriving DecidableEq, Repr

/-- The function `mg.NewMailgun`. -/
def NewMailgun (domain apiKey : String) : Mailgun := { domain := domain, apiKey := apiKey }

/-- A MIME message of the delivery client: the body stream it was given, at the position
the stream has when the message is built, and the recipients. -/
structure Message where
  body : Reader
  to_ : List String
  deriving DecidableEq, Repr

/-- The method `NewMIMEMessage(body, to...)`; `ioutil.NopCloser` only adds a `Close`. -/
def NewMIMEMessage (body : Reader) (to_ : List String) : Message :=
  { body := body, to_ := to_ }

/-- What one delivery call gives back: `(resp, id, err)`, the number of bytes it read from
the message body, and the time it took. -/
structure Reply where
  resp : String
  id : String
  err : Option Error
  read : Nat
  elapsed : Duration
  deriving DecidableEq, Repr

/-- Modelled from the spec: the delivery service behind `mailgunClient.Send` is not part of
the repository ("treated as an opaque remote call"); it is any state machine over `σ`
answering a call made with a client, a context and a message. -/
abbrev Remote (σ : Type) := σ → Mailgun → Context → Message → Reply × σ

/-- Record of one delivery call: what was passed, when, and what came back. -/
structure Call where
  client : Mailgun
  ctx : Context
  message : Message
  start : Time
  reply : Reply
  deriving DecidableEq, Repr

/-- The process state. -/
structure World (σ : Type) where
  /-- names of the families registered with the default registry, oldest first -/
  registry : List String
  /-- heap of counter families -/
  vecs : CounterVecPtr → CounterVec
  /-- next free heap address -/
  nextVec : CounterVecPtr
  /-- the clock -/
  now : Time
  /-- state of the delivery service -/
  remote : σ
  /-- delivery calls made so far, oldest first -/
  calls : List Call
  /-- lines written by `log.Printf`, oldest first -/
  log : List String

/-- The function `prometheus.NewCounterVec`: allocates a family with no children, which
reads zero at every label value. The label names are fixed at creation. -/
def NewCounterVec {σ : Type} (_opts : CounterOpts) (_labelNames : List String) (w : World σ) :
    CounterVecPtr × World σ :=
  (w.nextVec,
    { w with vecs := Function.update w.vecs w.nextVec (fun _ => 0), nextVec := w.nextVec + 1 })

/-- The call `c.WithLabelValues(label).Inc()`. -/
def Inc {σ : Type} (c : CounterVecPtr) (label : String) (w : World σ) : World σ :=
  { w with vecs := Function.update w.vecs c (Function.update (w.vecs c) label (w.vecs c label + 1)) }

/-- Modelled from the spec: the metrics registry is not part of the repository;
registration "fails ... if registration is attempted twice for the same process", that is,
when a family of the same name is already registered. -/
def Register {σ : Type} (opts : CounterOpts) (w : World σ) : Option Error × World σ :=
  if opts.Name ∈ w.registry then (some (Error.AlreadyRegisteredError opts.Name), w)
  else (none, { w with registry := w.registry ++ [opts.Name] })

/-- The function `prometheus.MustRegister`: `Register`, panicking with the error. -/
def MustRegister {σ : Type} (opts : CounterOpts) (w : World σ) : Outcome Unit × World σ :=
  match Register opts w with
  | (some err, w1) => (Outcome.panicked err, w1)
  | (none, w1) => (Outcome.returned (), w1)

/-- The call `log.Printf("ID: %s Resp: %s", id, resp)`. -/
def Printf {σ : Type} (id resp : String) (w : World σ) : World σ :=
  { w with log := w.log ++ ["ID: " ++ id ++ " Resp: " ++ resp] }

/-- The call `mailgunClient.Send(ctx, message)`: the service answers, the clock advances
by the time the call took, and the call is recorded. -/
def mailgunSend {σ : Type} (R : Remote σ) (client : Mailgun) (ctx : Context) (message : Message)
    (w : World σ) : Reply × World σ :=
  let out := R w.remote client ctx message
  (out.1,
    { w with
      remote := out.2
      now := w.now + out.1.elapsed
      calls := w.calls ++
        [{ client := client, ctx := ctx, message := message, start := w.now, reply := out.1 }] })

/-! ## The package -/

/-- Type `Backend`. -/
structure Backend where
  Domain : String
  privateKey : String
  metricsMailgunMessages : CounterVecPtr
  deriving DecidableEq, Repr

/-- Type `User`. -/
structure User where
  mailgunClient : Mailgun
  metricsMailgunMessages : CounterVecPtr
  deriving DecidableEq, Repr

/-- The options `NewBackend` creates its counter family with. -/
def messagesOpts : CounterOpts := { Name := "mailgun_messages", Help := "A counter for messages sent" }

/-- Function `NewBackend`. -/
def NewBackend {σ : Type} (domain privateKey : String) (w : World σ) :
    Outcome (Except Error Backend) × World σ :=
  if domain = "" ∨ privateKey = "" then
    (Outcome.returned (Except.error (Errorf "domain, privateKey must not be empty")), w)
  else
    let alloc := NewCounterVec messagesOpts ["status"] w
    let b : Backend :=
      { Domain := domain, privateKey := privateKey, metricsMailgunMessages := alloc.1 }
    match MustRegister messagesOpts alloc.2 with
    | (Outcome.panicked v, w2) => (Outcome.panicked v, w2)
    | (Outcome.returned _, w2) => (Outcome.returned (Except.ok b), w2)

/-- Method `Backend.Login`. -/
def Backend.Login {σ : Type} (b : Backend) (_username _password : String) (w : World σ) :
    Except Error User × World σ :=
  (Except.ok
    { mailgunClient := NewMailgun b.Domain b.privateKey
      metricsMailgunMessages := b.metricsMailgunMessages }, w)

/-- Method `Backend.AnonymousLogin`. -/
def Backend.AnonymousLogin {σ : Type} (b : Backend) (w : World σ) :
    Except Error User × World σ :=
  (Except.ok
    { mailgunClient := NewMailgun b.Domain b.privateKey
      metricsMailgunMessages := b.metricsMailgunMessages }, w)

/-- Method `User.Send`: the `for _, recipient := range to` loop, as a recursion on the
recipients still to serve. The result is the returned error (`none` for `nil`), the
position the body stream is left at, and the new process state. The deferred `cancel`
calls run at return and release the timers only. -/
def User.Send {σ : Type} (R : Remote σ) (u : User) (from_ : String) (to_ : List String)
    (r : Reader) (w : World σ) : Option Error × Reader × World σ :=
  match to_ with
  | [] => (none, r, w)
  | recipient :: rest =>
    let ctx := WithTimeout Context.Background (Second * 10) w.now
    let message := NewMIMEMessage r [recipient]
    let sent := mailgunSend R u.mailgunClient ctx message w
    let r1 := r.drop sent.1.read
    match sent.1.err with
    | some err => (some err, r1, Inc u.metricsMailgunMessages "fail" sent.2)
    | none =>
      User.Send R u from_ rest r1
        (Printf sent.1.id sent.1.resp (Inc u.metricsMailgunMessages "success" sent.2))

/-- Method `User.Logout`. -/
def User.Logout {σ : Type} (_u : User) (w : World σ) : Option Error × World σ :=
  (none, w)

/-- The delivery calls made between state `w` and a later state `w1`. -/
def callsMade {σ : Type} (w w1 : World σ) : List Call :=
  w1.calls.drop w.calls.length

/-- Whether a recorded call came back without error. -/
def Call.succeeded (c : Call) : Bool := c.reply.err.isNone

/-- Whether a recorded call came back with an error. -/
def Call.failed (c : Call) : Bool := c.reply.err.isSome

/-- The record of the delivery call `User.Send` makes for recipient `x` when it has
reached that recipient with the body stream at `r` in state `w`. -/
def firstCall {σ : Type} (R : Remote σ) (u : User) (x : String) (r : Reader) (w : World σ) :
    Call :=
  { client := u.mailgunClient
    ctx := WithTimeout Context.Background (Second * 10) w.now
    message := NewMIMEMessage r [x]
    start := w.now
    reply := (R w.remote u.mailgunClient (WithTimeout Context.Background (Second * 10) w.now)
      (NewMIMEMessage r [x])).1 }

/-- The state in which `User.Send` goes on to the next recipient after the call for
recipient `x`, made in state `w` with the body stream at `r`, has succeeded. -/
def nextWorld {σ : Type} (R : Remote σ) (u : User) (x : String) (r : Reader) (w : World σ) :
    World σ :=
  Printf (firstCall R u x r w).reply.id (firstCall R u x r w).reply.resp
    (Inc u.metricsMailgunMessages "success"
      (mailgunSend R u.mailgunClient (WithTimeout Context.Background (Second * 10) w.now)
        (NewMIMEMessage r [x]) w).2)

/-- The position of the body stream after the call for recipient `x`. -/
def nextReader {σ : Type} (R : Remote σ) (u : User) (x : String) (r : Reader) (w : World σ) :
    Reader :=
  r.drop (firstCall R u x r w).reply.read

/-! ## A process using the package -/

/-- A process that has built its session factory: the factory, the sessions it has
handed out so far (oldest first), and the process state. -/
structure Process (σ : Type) where
  backend : Backend
  sessions : List User
  world : World σ

/-- The process right after `NewBackend` returned `b`, leaving the state `w`. -/
def Process.fresh {σ : Type} (b : Backend) (w : World σ) : Process σ :=
  { backend := b, sessions := [], world := w }

/-- The calls the protocol engine makes on the factory and on its sessions; a session is
named by its position in `Process.sessions`. -/
inductive Op where
  | Login (username password : String)
  | AnonymousLogin
  | Send (session : Nat) (from_ : String) (to_ : List String) (r : Reader)
  | Logout (session : Nat)
  deriving DecidableEq, Repr

/-- One call of the protocol engine. A call on a session that was never handed out
cannot be made and leaves the process as it is. -/
def Process.step {σ : Type} (R : Remote σ) (s : Process σ) : Op → Process σ
  | Op.Login username password =>
    match s.backend.Login username password s.world with
    | (Except.ok u, w) => { s with sessions := s.sessions ++ [u], world := w }
    | (Except.error _, w) => { s with world := w }
  | Op.AnonymousLogin =>
    match s.backend.AnonymousLogin s.world with
    | (Except.ok u, w) => { s with sessions := s.sessions ++ [u], world := w }
    | (Except.error _, w) => { s with world := w }
  | Op.Send session from_ to_ r =>
    match s.sessions[session]? with
    | some u => { s with world := (u.Send R from_ to_ r s.world).2.2 }
    | none => s
  | Op.Logout session =>
    match s.sessions[session]? with
    | some u => { s with world := (u.Logout s.world).2 }
    | none => s

/-- A sequence of calls of the protocol engine, in order. -/
def Process.run {σ : Type} (R : Remote σ) (s : Process σ) (ops : List Op) : Process σ :=
  ops.foldl (Process.step R) s

/-- The sessions of a process count into the family of its factory. -/
def Process.Shared {σ : Type} (s : Process σ) : Prop :=
  ∀ u ∈ s.sessions, u.metricsMailgunMessages = s.backend.metricsMailgunMessages

/-- How far the count at label `l` moves when the calls `new` are accounted for. -/
def moved (l : String) (new : List Call) : Nat :=
  (if l = "success" then (new.filter Call.succeeded).length else 0)
    + (if l = "fail" then (new.filter Call.failed).length else 0)

/-! ## Sample inputs -/

/-- A process state at startup: nothing registered, clock at zero, no call made. -/
def startWorld : World Nat :=
  { registry := [], vecs := fun _ _ => 0, nextVec := 0, now := 0, remote := 0, calls := [],
    log := [] }

/-- A session of the factory for domain `example.org`, counting into family 0. -/
def sampleUser : User :=
  { mailgunClient := NewMailgun "example.org" "key", metricsMailgunMessages := 0 }

/-- A delivery service that accepts every message after reading its body to the end,
as a client that uploads the body does. Its state counts the calls. -/
def acceptAll : Remote Nat := fun n _ _ m =>
  ({ resp := "Queued. Thank you.", id := "X", err := none, read := m.body.length, elapsed := 7 },
    n + 1)

/-- A delivery service that rejects its second call and accepts the others. -/
def rejectSecond : Remote Nat := fun n _ _ m =>
  ({ resp := if n = 1 then "" else "Queued. Thank you."
     id := if n = 1 then "" else "X"
     err := if n = 1 then some (Error.errorString "rejected") else none
     read := m.body.length
     elapsed := 7 },
    n + 1)

/-- A delivery service whose calls all run into the deadline of their context. -/
def timesOut : Remote Nat := fun n _ _ _ =>
  ({ resp := "", id := "", err := some Error.DeadlineExceeded, read := 0,
     elapsed := Second * 10 },
    n + 1)

/-- A two-byte message body. -/
def sampleBody : Reader := [104, 105]

/-- Calls of a protocol engine: two logins, a submission on each session, a logout. -/
def sampleOps : List Op :=
  [Op.Login "user" "secret",
   Op.Send 0 "s@example.com" ["a@example.com", "b@example.com", "c@example.com"] [104, 105],
   Op.AnonymousLogin,
   Op.Send 1 "s@example.com" ["d@example.com"] [104, 105],
   Op.Logout 0]

/-- Later calls: one more submission on the first session. -/
def laterOps : List Op :=
  [Op.Send 0 "s@example.com" ["e@example.com", "f@example.com"] [104]]

/-- Two recipients. -/
def twoRecipients : List String := ["a@example.com", "b@example.com"]

/-- Three recipients. -/
def threeRecipients : List String := ["a@example.com", "b@example.com", "c@example.com"]

/-! ## Effects of the library calls -/

section effects
variable {σ : Type}

theorem Inc_vecs (c : CounterVecPtr) (label : String) (w : World σ) (p : CounterVecPtr)
    (l : String) :
    (Inc c label w).vecs p l = w.vecs p l + (if p = c ∧ l = label then 1 else 0) := by
  unfold Inc
  by_cases hp : p = c
  · subst hp
    by_cases hl : l = label
    · subst hl; simp
    · simp [Function.update_noteq hl, hl]
  · simp [Function.update_noteq hp, hp]

theorem Printf_vecs (id resp : String) (w : World σ) : (Printf id resp w).vecs = w.vecs := rfl

theorem Printf_calls (id resp : String) (w : World σ) : (Printf id resp w).calls = w.calls := rfl

theorem Printf_registry (id resp : String) (w : World σ) :
    (Printf id resp w).registry = w.registry := rfl

theorem Inc_calls (c : CounterVecPtr) (label : String) (w : World σ) :
    (Inc c label w).calls = w.calls := rfl

theorem Inc_registry (c : CounterVecPtr) (label : String) (w : World σ) :
    (Inc c label w).registry = w.registry := rfl

theorem Inc_now (c : CounterVecPtr) (label : String) (w : World σ) :
    (Inc c label w).now = w.now := rfl

theorem WithTimeout_Background (timeout : Duration) (now : Time) :
    WithTimeout Context.Background timeout now
      = Context.timerCtx Context.Background (now + timeout) := rfl

end effects

/-! ## The run of `User.Send` -/

section run
variable {σ : Type}

/-- What a run of `User.Send` does, in terms of the delivery calls `new` it makes: they
are appended to the record, go to the first recipients in order, each with the session's
client and a context ending 10 s after the call starts; the counters of the session move
by the numbers of succeeded and failed calls; and either all calls succeeded, every
recipient was served and `nil` is returned, or the last call failed, all before it
succeeded and its error is returned. -/
theorem Send_run (R : Remote σ) (u : User) (from_ : String) (to_ : List String) (r : Reader)
    (w : World σ) :
    ∃ new : List Call,
      (u.Send R from_ to_ r w).2.2.calls = w.calls ++ new ∧
      new.map (fun c => c.message.to_) = (to_.take new.length).map (fun x => [x]) ∧
      new.length ≤ to_.length ∧
      (∀ c ∈ new, c.client = u.mailgunClient ∧
        c.ctx = Context.timerCtx Context.Background (c.start + Second * 10)) ∧
      (∀ p l, (u.Send R from_ to_ r w).2.2.vecs p l = w.vecs p l
        + (if p = u.metricsMailgunMessages ∧ l = "success"
            then (new.filter Call.succeeded).length else 0)
        + (if p = u.metricsMailgunMessages ∧ l = "fail"
            then (new.filter Call.failed).length else 0)) ∧
      (u.Send R from_ to_ r w).2.2.registry = w.registry ∧
      (((u.Send R from_ to_ r w).1 = none ∧ new.length = to_.length ∧
          ∀ c ∈ new, c.reply.err = none) ∨
        (∃ pre c e, new = pre ++ [c] ∧ (∀ d ∈ pre, d.reply.err = none) ∧
          c.reply.err = some e ∧ (u.Send R from_ to_ r w).1 = some e)) := by
  induction to_ generalizing r w with
  | nil => exact ⟨[], by simp [User.Send]⟩
  | cons x rest ih =>
    simp only [User.Send]
    cases herr : (mailgunSend R u.mailgunClient
        (WithTimeout Context.Background (Second * 10) w.now) (NewMIMEMessage r [x]) w).1.err with
    | some e =>
      have hc : (firstCall R u x r w).reply.err = some e := herr
      refine ⟨[firstCall R u x r w], ?_, ?_, ?_, ?_, ?_, ?_, ?_⟩
      · simp [Inc_calls, mailgunSend, firstCall]
      · simp [NewMIMEMessage, firstCall]
      · simp
      · simp [WithTimeout_Background, firstCall]
      · intro p l
        simp only [Inc_vecs]
        simp [mailgunSend, Call.succeeded, Call.failed, hc]
      · simp [Inc_registry, mailgunSend]
      · right
        exact ⟨[], firstCall R u x r w, e, by simp, by simp, hc, rfl⟩
    | none =>
      have hc : (firstCall R u x r w).reply.err = none := herr
      obtain ⟨new, h1, h2, h3, h4, h5, h6, h7⟩ := ih
        (List.drop (mailgunSend R u.mailgunClient
          (WithTimeout Context.Background (Second * 10) w.now) (NewMIMEMessage r [x]) w).1.read r)
        (Printf (mailgunSend R u.mailgunClient
            (WithTimeout Context.Background (Second * 10) w.now) (NewMIMEMessage r [x]) w).1.id
          (mailgunSend R u.mailgunClient
            (WithTimeout Context.Background (Second * 10) w.now) (NewMIMEMessage r [x]) w).1.resp
          (Inc u.metricsMailgunMessages "success" (mailgunSend R u.mailgunClient
            (WithTimeout Context.Background (Second * 10) w.now) (NewMIMEMessage r [x]) w).2))
      refine ⟨firstCall R u x r w :: new, ?_, ?_, ?_, ?_, ?_, ?_, ?_⟩
      · rw [h1]; simp [Printf_calls, Inc_calls, mailgunSend, firstCall]
      · simp [h2, NewMIMEMessage, firstCall]
      · simpa using h3
      · intro c hmem
        rcases List.mem_cons.1 hmem with rfl | hmem
        · simp [WithTimeout_Background, firstCall]
        · exact h4 c hmem
      · intro p l
        rw [h5 p l, Printf_vecs, Inc_vecs]
        have hs : Call.succeeded (firstCall R u x r w) = true := by simp [Call.succeeded, hc]
        have hf : Call.failed (firstCall R u x r w) = false := by simp [Call.failed, hc]
        simp only [List.filter_cons, hs, hf, List.length_cons, mailgunSend]
        by_cases hp : p = u.metricsMailgunMessages ∧ l = "success"
        · have hne : ¬ (p = u.metricsMailgunMessages ∧ l = "fail") := by
            rintro ⟨-, hl⟩; rw [hl] at hp; exact absurd hp.2 (by decide)
          simp [hp, hne]; omega
        · simp [hp]
      · rw [h6]; simp [Printf_registry, Inc_registry, mailgunSend]
      · rcases h7 with ⟨hres, hlen, hall⟩ | ⟨pre, c, e, hnew, hpre, hce, hres⟩
        · left
          refine ⟨hres, by simp [hlen], ?_⟩
          intro c hmem
          rcases List.mem_cons.1 hmem with rfl | hmem
          · exact hc
          · exact hall c hmem
        · right
          refine ⟨firstCall R u x r w :: pre, c, e, by simp [hnew], ?_, hce, hres⟩
          intro d hmem
          rcases List.mem_cons.1 hmem with rfl | hmem
          · exact hc
          · exact hpre d hmem

theorem callsMade_of_append (w w1 : World σ) (new : List Call)
    (h : w1.calls = w.calls ++ new) : callsMade w w1 = new := by
  simp [callsMade, h]

theorem filter_succeeded_of_ok (l : List Call) (h : ∀ c ∈ l, c.reply.err = none) :
    l.filter Call.succeeded = l := by
  apply List.filter_eq_self.2
  intro c hc
  simp [Call.succeeded, h c hc]

theorem filter_failed_of_ok (l : List Call) (h : ∀ c ∈ l, c.reply.err = none) :
    l.filter Call.failed = [] := by
  apply List.filter_eq_nil_iff.2
  intro c hc
  simp [Call.failed, h c hc]

theorem filter_succeeded_add_failed (l : List Call) :
    (l.filter Call.succeeded).length + (l.filter Call.failed).length = l.length := by
  induction l with
  | nil => rfl
  | cons c l ih =>
    cases hc : c.reply.err <;>
      simp [List.filter_cons, Call.succeeded, Call.failed, hc] <;> omega

/-- A run of `User.Send` in which some call came back with an error: that call is the
last one made, all before it succeeded, and its error is what `Send` returns. -/
theorem Send_run_failed (R : Remote σ) (u : User) (from_ : String) (to_ : List String)
    (r : Reader) (w : World σ) (c : Call) (e : Error)
    (hc : c ∈ callsMade w (u.Send R from_ to_ r w).2.2) (he : c.reply.err = some e) :
    ∃ pre, callsMade w (u.Send R from_ to_ r w).2.2 = pre ++ [c] ∧
      (∀ d ∈ pre, d.reply.err = none) ∧ (u.Send R from_ to_ r w).1 = some e := by
  obtain ⟨new, h1, -, -, -, -, -, h7⟩ := Send_run R u from_ to_ r w
  rw [callsMade_of_append _ _ _ h1] at hc ⊢
  rcases h7 with ⟨-, -, hall⟩ | ⟨pre, c', e', hnew, hpre, hce, hres⟩
  · rw [hall c hc] at he; cases he
  · subst hnew
    rcases List.mem_append.1 hc with hmem | hmem
    · rw [hpre c hmem] at he; cases he
    · have hcc : c = c' := by simpa using hmem
      subst hcc
      rw [he] at hce
      cases hce
      exact ⟨pre, rfl, hpre, hres⟩

theorem Send_cons_ok (R : Remote σ) (u : User) (from_ x : String) (rest : List String)
    (r : Reader) (w : World σ) (h : (firstCall R u x r w).reply.err = none) :
    u.Send R from_ (x :: rest) r w
      = u.Send R from_ rest (nextReader R u x r w) (nextWorld R u x r w) := by
  have h2 : (mailgunSend R u.mailgunClient (WithTimeout Context.Background (Second * 10) w.now)
      (NewMIMEMessage r [x]) w).1.err = none := h
  simp only [User.Send, h2]
  rfl

theorem Send_cons_err (R : Remote σ) (u : User) (from_ x : String) (rest : List String)
    (r : Reader) (w : World σ) (e : Error) (h : (firstCall R u x r w).reply.err = some e) :
    (u.Send R from_ (x :: rest) r w).2.2.calls = w.calls ++ [firstCall R u x r w] := by
  have h2 : (mailgunSend R u.mailgunClient (WithTimeout Context.Background (Second * 10) w.now)
      (NewMIMEMessage r [x]) w).1.err = some e := h
  simp only [User.Send, h2]
  rfl

theorem nextWorld_calls (R : Remote σ) (u : User) (x : String) (r : Reader) (w : World σ) :
    (nextWorld R u x r w).calls = w.calls ++ [firstCall R u x r w] := rfl

theorem nextWorld_now (R : Remote σ) (u : User) (x : String) (r : Reader) (w : World σ) :
    (nextWorld R u x r w).now = w.now + (firstCall R u x r w).reply.elapsed := rfl

/-- The calls of a run over `x :: rest`: the call for `x`, then, if it succeeded, the
calls of the run over `rest`. -/
theorem callsMade_Send_cons (R : Remote σ) (u : User) (from_ x : String) (rest : List String)
    (r : Reader) (w : World σ) :
    callsMade w (u.Send R from_ (x :: rest) r w).2.2
      = firstCall R u x r w ::
        (if (firstCall R u x r w).reply.err = none then
          callsMade (nextWorld R u x r w)
            (u.Send R from_ rest (nextReader R u x r w) (nextWorld R u x r w)).2.2
        else []) := by
  cases h : (firstCall R u x r w).reply.err with
  | some e =>
    rw [callsMade_of_append _ _ _ (Send_cons_err R u from_ x rest r w e h)]
    simp
  | none =>
    obtain ⟨new, h1, -⟩ := Send_run R u from_ rest (nextReader R u x r w) (nextWorld R u x r w)
    rw [Send_cons_ok R u from_ x rest r w h, callsMade_of_append _ _ _ h1]
    simp only [if_true]
    apply callsMade_of_append
    rw [h1, nextWorld_calls, List.append_assoc, List.singleton_append]

/-- The order of the calls of a run: the first call starts at the entry of `Send` and
gets the body stream as passed in; each later call starts when the one before it ended
and gets the body stream where the one before it left it. -/
theorem Send_sequence (R : Remote σ) (u : User) (from_ : String) (to_ : List String)
    (r : Reader) (w : World σ) :
    (∀ a, (callsMade w (u.Send R from_ to_ r w).2.2)[0]? = some a →
      a.start = w.now ∧ a.message.body = r) ∧
    (∀ i a b, (callsMade w (u.Send R from_ to_ r w).2.2)[i]? = some a →
      (callsMade w (u.Send R from_ to_ r w).2.2)[i + 1]? = some b →
      b.start = a.start + a.reply.elapsed ∧
        b.message.body = a.message.body.drop a.reply.read) := by
  induction to_ generalizing r w with
  | nil => simp [User.Send, callsMade]
  | cons x rest ih =>
    rw [callsMade_Send_cons]
    constructor
    · intro a ha
      simp only [List.getElem?_cons_zero, Option.some.injEq] at ha
      subst ha
      exact ⟨rfl, rfl⟩
    · intro i a b ha hb
      by_cases herr : (firstCall R u x r w).reply.err = none
      · simp only [herr, if_true] at ha hb
        obtain ⟨ih0, ihs⟩ := ih (nextReader R u x r w) (nextWorld R u x r w)
        cases i with
        | zero =>
          simp only [List.getElem?_cons_zero, Option.some.injEq] at ha
          simp only [Nat.zero_add, List.getElem?_cons_succ] at hb
          subst ha
          have := ih0 b hb
          rw [nextWorld_now] at this
          exact ⟨this.1, this.2⟩
        | succ j =>
          simp only [List.getElem?_cons_succ] at ha hb
          exact ihs j a b ha hb
      · simp [herr] at hb

end run

/-! ## Submission -/

section submission
variable {σ : Type}

/-- C1 (fail-fast submission): in a run of `User.Send` whose delivery call of index `i`
came back with error `e`, `Send` returns exactly `e`, the `fail` count grows by 1 and the
`success` count by `i`, exactly `i + 1` calls are made, addressed to the first `i + 1`
recipients in list order (so none goes to a later recipient), and the calls before
index `i` all succeeded. -/
theorem Send_fail_fast (R : Remote σ) (u : User) (from_ : String) (to_ : List String)
    (r : Reader) (w : World σ) (i : Nat) (e : Error)
    (hi : ((callsMade w (u.Send R from_ to_ r w).2.2)[i]?).bind (fun c => c.reply.err)
      = some e) :
    (u.Send R from_ to_ r w).1 = some e ∧
    (u.Send R from_ to_ r w).2.2.vecs u.metricsMailgunMessages "fail"
      = w.vecs u.metricsMailgunMessages "fail" + 1 ∧
    (u.Send R from_ to_ r w).2.2.vecs u.metricsMailgunMessages "success"
      = w.vecs u.metricsMailgunMessages "success" + i ∧
    (callsMade w (u.Send R from_ to_ r w).2.2).length = i + 1 ∧
    (callsMade w (u.Send R from_ to_ r w).2.2).map (fun c => c.message.to_)
      = (to_.take (i + 1)).map (fun x => [x]) ∧
    (∀ j d, j < i → (callsMade w (u.Send R from_ to_ r w).2.2)[j]? = some d →
      d.reply.err = none) := by
  obtain ⟨c, hci, hce⟩ := Option.bind_eq_some.1 hi
  have hmem : c ∈ callsMade w (u.Send R from_ to_ r w).2.2 := List.getElem?_mem hci
  obtain ⟨pre, hpre, hok, hres⟩ := Send_run_failed R u from_ to_ r w c e hmem hce
  obtain ⟨new, h1, h2, -, -, h5, -, -⟩ := Send_run R u from_ to_ r w
  have hnew : callsMade w (u.Send R from_ to_ r w).2.2 = new := callsMade_of_append _ _ _ h1
  have hlen : i = pre.length := by
    rw [hpre] at hci
    by_contra hne
    have hlt : i < (pre ++ [c]).length := (List.getElem?_eq_some_iff.1 hci).1
    have hlt2 : i < pre.length := by
      simp at hlt; omega
    rw [List.getElem?_append_left hlt2] at hci
    have := hok c (List.getElem?_mem hci)
    rw [this] at hce; cases hce
  have hfs : ((pre ++ [c]).filter Call.succeeded).length = i := by
    rw [List.filter_append, filter_succeeded_of_ok pre hok, hlen]
    simp [List.filter_cons, Call.succeeded, hce]
  have hff : ((pre ++ [c]).filter Call.failed).length = 1 := by
    rw [List.filter_append, filter_failed_of_ok pre hok]
    simp [List.filter_cons, Call.failed, hce]
  rw [hnew] at hpre
  subst hpre
  refine ⟨hres, ?_, ?_, ?_, ?_, ?_⟩
  · rw [h5, hff]; simp
  · rw [h5, hfs]; simp
  · rw [hnew]; simp [hlen]
  · rw [hnew, h2]; simp [hlen]
  · intro j d hj hjd
    rw [hnew, List.getElem?_append_left (by omega)] at hjd
    exact hok d (List.getElem?_mem hjd)

/-- Witness for C1: three recipients, the service rejects its second call. -/
theorem Send_fail_fast_witness :
    ((callsMade startWorld
        (sampleUser.Send rejectSecond "s@example.com" threeRecipients sampleBody
          startWorld).2.2)[1]?).bind (fun c => c.reply.err)
      = some (Error.errorString "rejected") ∧
    ((sampleUser.Send rejectSecond "s@example.com" threeRecipients sampleBody startWorld).1
      = some (Error.errorString "rejected") ∧
    (sampleUser.Send rejectSecond "s@example.com" threeRecipients sampleBody
        startWorld).2.2.vecs sampleUser.metricsMailgunMessages "fail"
      = startWorld.vecs sampleUser.metricsMailgunMessages "fail" + 1 ∧
    (sampleUser.Send rejectSecond "s@example.com" threeRecipients sampleBody
        startWorld).2.2.vecs sampleUser.metricsMailgunMessages "success"
      = startWorld.vecs sampleUser.metricsMailgunMessages "success" + 1 ∧
    (callsMade startWorld (sampleUser.Send rejectSecond "s@example.com" threeRecipients
        sampleBody startWorld).2.2).length = 1 + 1 ∧
    (callsMade startWorld (sampleUser.Send rejectSecond "s@example.com" threeRecipients
        sampleBody startWorld).2.2).map (fun c => c.message.to_)
      = (threeRecipients.take (1 + 1)).map (fun x => [x]) ∧
    (∀ j d, j < 1 → (callsMade startWorld (sampleUser.Send rejectSecond "s@example.com"
        threeRecipients sampleBody startWorld).2.2)[j]? = some d → d.reply.err = none)) :=
  ⟨by decide,
    Send_fail_fast rejectSecond sampleUser "s@example.com" threeRecipients sampleBody
      startWorld 1 (Error.errorString "rejected") (by decide)⟩

/-- C3 (all-success submission): in a run of `User.Send` whose delivery calls all
succeed, `Send` returns `nil`, makes exactly one call per recipient, in list order,
the `success` count grows by the number of recipients and the `fail` count is
unchanged; with no recipient no call is made and both counts are unchanged. -/
theorem Send_all_succeed (R : Remote σ) (u : User) (from_ : String) (to_ : List String)
    (r : Reader) (w : World σ)
    (hall : ∀ c ∈ callsMade w (u.Send R from_ to_ r w).2.2, c.reply.err = none) :
    (u.Send R from_ to_ r w).1 = none ∧
    (callsMade w (u.Send R from_ to_ r w).2.2).length = to_.length ∧
    (callsMade w (u.Send R from_ to_ r w).2.2).map (fun c => c.message.to_)
      = to_.map (fun x => [x]) ∧
    (u.Send R from_ to_ r w).2.2.vecs u.metricsMailgunMessages "success"
      = w.vecs u.metricsMailgunMessages "success" + to_.length ∧
    (u.Send R from_ to_ r w).2.2.vecs u.metricsMailgunMessages "fail"
      = w.vecs u.metricsMailgunMessages "fail" := by
  obtain ⟨new, h1, h2, -, -, h5, -, h7⟩ := Send_run R u from_ to_ r w
  have hnew : callsMade w (u.Send R from_ to_ r w).2.2 = new := callsMade_of_append _ _ _ h1
  rw [hnew] at hall ⊢
  rcases h7 with ⟨hres, hlen, -⟩ | ⟨pre, c, e, hpre, -, hce, -⟩
  · refine ⟨hres, hlen, ?_, ?_, ?_⟩
    · rw [h2, hlen]; simp
    · rw [h5, filter_succeeded_of_ok new hall, hlen]; simp
    · rw [h5, filter_failed_of_ok new hall]; simp
  · have := hall c (by simp [hpre])
    rw [this] at hce; cases hce

/-- Witness for C3: two recipients, the service accepts every call. -/
theorem Send_all_succeed_witness :
    (∀ c ∈ callsMade startWorld
        (sampleUser.Send acceptAll "s@example.com" twoRecipients sampleBody startWorld).2.2,
      c.reply.err = none) ∧
    ((sampleUser.Send acceptAll "s@example.com" twoRecipients sampleBody startWorld).1 = none ∧
    (callsMade startWorld (sampleUser.Send acceptAll "s@example.com" twoRecipients sampleBody
        startWorld).2.2).length = twoRecipients.length ∧
    (callsMade startWorld (sampleUser.Send acceptAll "s@example.com" twoRecipients sampleBody
        startWorld).2.2).map (fun c => c.message.to_)
      = twoRecipients.map (fun x => [x]) ∧
    (sampleUser.Send acceptAll "s@example.com" twoRecipients sampleBody
        startWorld).2.2.vecs sampleUser.metricsMailgunMessages "success"
      = startWorld.vecs sampleUser.metricsMailgunMessages "success" + twoRecipients.length ∧
    (sampleUser.Send acceptAll "s@example.com" twoRecipients sampleBody
        startWorld).2.2.vecs sampleUser.metricsMailgunMessages "fail"
      = startWorld.vecs sampleUser.metricsMailgunMessages "fail") :=
  ⟨by decide,
    Send_all_succeed acceptAll sampleUser "s@example.com" twoRecipients sampleBody startWorld
      (by decide)⟩

/-- C7 (per-attempt 10-second bound): every delivery call `User.Send` makes is given the
context `WithTimeout(Background, 10 s)` built at the start of that very call, so its
deadline lies exactly 10 s after the start of the call itself; the deadline of a later
call lies 10 s after the end of the call before it, so it is not cut short by the time
the earlier calls took; and when a call comes back with the deadline error, `Send`
returns that error and the `fail` count grows by exactly 1. -/
theorem Send_deadline (R : Remote σ) (u : User) (from_ : String) (to_ : List String)
    (r : Reader) (w : World σ) (c : Call)
    (hc : c ∈ callsMade w (u.Send R from_ to_ r w).2.2) :
    c.ctx = WithTimeout Context.Background (Second * 10) c.start ∧
    c.ctx.Deadline = some (c.start + 10000000000) ∧
    (∀ i a b, (callsMade w (u.Send R from_ to_ r w).2.2)[i]? = some a →
      (callsMade w (u.Send R from_ to_ r w).2.2)[i + 1]? = some b →
      b.ctx.Deadline = some (a.start + a.reply.elapsed + 10000000000)) ∧
    (c.reply.err = some Error.DeadlineExceeded →
      (u.Send R from_ to_ r w).1 = some Error.DeadlineExceeded ∧
      (u.Send R from_ to_ r w).2.2.vecs u.metricsMailgunMessages "fail"
        = w.vecs u.metricsMailgunMessages "fail" + 1) := by
  obtain ⟨new, h1, -, -, h4, h5, -, -⟩ := Send_run R u from_ to_ r w
  have hnew : callsMade w (u.Send R from_ to_ r w).2.2 = new := callsMade_of_append _ _ _ h1
  have hctx := (h4 c (hnew ▸ hc)).2
  refine ⟨by rw [hctx]; rfl, by rw [hctx]; rfl, ?_, ?_⟩
  · intro i a b ha hb
    have hstart := ((Send_sequence R u from_ to_ r w).2 i a b ha hb).1
    have hbctx := (h4 b (hnew ▸ List.getElem?_mem hb)).2
    rw [hbctx, hstart]
    rfl
  intro he
  obtain ⟨pre, hpre, hok, hres⟩ := Send_run_failed R u from_ to_ r w c _ hc he
  refine ⟨hres, ?_⟩
  rw [hnew] at hpre
  have hff : (new.filter Call.failed).length = 1 := by
    rw [hpre, List.filter_append, filter_failed_of_ok pre hok]
    simp [List.filter_cons, Call.failed, he]
  rw [h5, hff]
  simp

/-- Witness for C7: the first call of a run against a service that always times out. -/
theorem Send_deadline_witness :
    firstCall timesOut sampleUser "a@example.com" sampleBody startWorld
      ∈ callsMade startWorld
        (sampleUser.Send timesOut "s@example.com" twoRecipients sampleBody startWorld).2.2 ∧
    ((firstCall timesOut sampleUser "a@example.com" sampleBody startWorld).ctx
      = WithTimeout Context.Background (Second * 10)
        (firstCall timesOut sampleUser "a@example.com" sampleBody startWorld).start ∧
    (firstCall timesOut sampleUser "a@example.com" sampleBody startWorld).ctx.Deadline
      = some ((firstCall timesOut sampleUser "a@example.com" sampleBody startWorld).start
        + 10000000000) ∧
    (∀ i a b, (callsMade startWorld (sampleUser.Send timesOut "s@example.com" twoRecipients
          sampleBody startWorld).2.2)[i]? = some a →
      (callsMade startWorld (sampleUser.Send timesOut "s@example.com" twoRecipients
          sampleBody startWorld).2.2)[i + 1]? = some b →
      b.ctx.Deadline = some (a.start + a.reply.elapsed + 10000000000)) ∧
    ((firstCall timesOut sampleUser "a@example.com" sampleBody startWorld).reply.err
        = some Error.DeadlineExceeded →
      (sampleUser.Send timesOut "s@example.com" twoRecipients sampleBody startWorld).1
        = some Error.DeadlineExceeded ∧
      (sampleUser.Send timesOut "s@example.com" twoRecipients sampleBody
          startWorld).2.2.vecs sampleUser.metricsMailgunMessages "fail"
        = startWorld.vecs sampleUser.metricsMailgunMessages "fail" + 1)) :=
  ⟨by decide,
    Send_deadline timesOut sampleUser "s@example.com" twoRecipients sampleBody startWorld
      (firstCall timesOut sampleUser "a@example.com" sampleBody startWorld) (by decide)⟩

/-- Every delivery call after the first is handed the body stream where the call before
it left it: what the earlier call read is gone. -/
theorem Send_body_after (R : Remote σ) (u : User) (from_ : String) (to_ : List String)
    (r : Reader) (w : World σ) (i : Nat) (a b : Call)
    (ha : (callsMade w (u.Send R from_ to_ r w).2.2)[i]? = some a)
    (hb : (callsMade w (u.Send R from_ to_ r w).2.2)[i + 1]? = some b) :
    b.message.body = a.message.body.drop a.reply.read :=
  ((Send_sequence R u from_ to_ r w).2 i a b ha hb).2

/-- C2 (body buffer-and-replay), evaluated on the code: with two recipients, a two-byte
body and a service that accepts both calls after reading the body it is given, `Send`
returns `nil`, the first call is handed the full body and the second call is handed the
exhausted stream. -/
theorem Send_second_body_exhausted :
    (sampleUser.Send acceptAll "s@example.com" twoRecipients sampleBody startWorld).1 = none ∧
    (callsMade startWorld
        (sampleUser.Send acceptAll "s@example.com" twoRecipients sampleBody
          startWorld).2.2).map (fun c => c.message.body)
      = [sampleBody, []] := by
  decide

/-- C10 (the envelope sender is ignored): two runs of `User.Send` that differ only in the
sender return the same error, leave the body stream at the same position and end in the
same state, which holds the record of the delivery calls and the counters. -/
theorem Send_sender_ignored (R : Remote σ) (u : User) (from1 from2 : String)
    (to_ : List String) (r : Reader) (w : World σ) :
    u.Send R from1 to_ r w = u.Send R from2 to_ r w := by
  induction to_ generalizing r w with
  | nil => rfl
  | cons x rest ih =>
    cases h : (firstCall R u x r w).reply.err with
    | none => rw [Send_cons_ok R u from1 x rest r w h, Send_cons_ok R u from2 x rest r w h, ih]
    | some e =>
      have h2 : (mailgunSend R u.mailgunClient
          (WithTimeout Context.Background (Second * 10) w.now)
          (NewMIMEMessage r [x]) w).1.err = some e := h
      simp only [User.Send, h2]

/-- C8 (terminate is a no-op): in every state, `User.Logout` returns `nil` and leaves the
state, with the delivery client of the session and the counters, as it was; a `Send`
issued after it does what it would have done before it. -/
theorem Logout_noop (R : Remote σ) (u : User) (w : World σ) (from_ : String)
    (to_ : List String) (r : Reader) :
    (u.Logout w).1 = none ∧ (u.Logout w).2 = w ∧
    u.Send R from_ to_ r (u.Logout w).2 = u.Send R from_ to_ r w :=
  ⟨rfl, rfl, rfl⟩

end submission

/-! ## The session factory -/

section factory
variable {σ : Type}

theorem NewBackend_ok (domain privateKey : String) (w : World σ)
    (hd : domain ≠ "") (hk : privateKey ≠ "") (hreg : messagesOpts.Name ∉ w.registry) :
    NewBackend domain privateKey w
      = (Outcome.returned (Except.ok
          { Domain := domain, privateKey := privateKey, metricsMailgunMessages := w.nextVec }),
        { w with
          vecs := Function.update w.vecs w.nextVec (fun _ => 0)
          nextVec := w.nextVec + 1
          registry := w.registry ++ [messagesOpts.Name] }) := by
  simp [NewBackend, hd, hk, MustRegister, Register, NewCounterVec, hreg]

theorem NewBackend_registered (domain privateKey : String) (w : World σ)
    (hd : domain ≠ "") (hk : privateKey ≠ "") (hreg : messagesOpts.Name ∈ w.registry) :
    NewBackend domain privateKey w
      = (Outcome.panicked (Error.AlreadyRegisteredError messagesOpts.Name),
        { w with
          vecs := Function.update w.vecs w.nextVec (fun _ => 0)
          nextVec := w.nextVec + 1 }) := by
  simp [NewBackend, hd, hk, MustRegister, Register, NewCounterVec, hreg]

theorem NewBackend_empty (domain privateKey : String) (w : World σ)
    (h : domain = "" ∨ privateKey = "") :
    NewBackend domain privateKey w
      = (Outcome.returned (Except.error (Errorf "domain, privateKey must not be empty")), w) := by
  simp [NewBackend, h]

/-- C4 (configuration validation): in a state in which the counter family is not yet
registered, `NewBackend` returns the invalid-configuration error exactly when the domain
or the credential is empty, and otherwise returns a backend that holds the given domain
and credential. -/
theorem NewBackend_validates (domain privateKey : String) (w : World σ)
    (hreg : messagesOpts.Name ∉ w.registry) :
    ((NewBackend domain privateKey w).1
        = Outcome.returned (Except.error (Errorf "domain, privateKey must not be empty"))
      ↔ domain = "" ∨ privateKey = "") ∧
    (¬ (domain = "" ∨ privateKey = "") →
      ∃ b, (NewBackend domain privateKey w).1 = Outcome.returned (Except.ok b) ∧
        b.Domain = domain ∧ b.privateKey = privateKey) := by
  by_cases h : domain = "" ∨ privateKey = ""
  · rw [NewBackend_empty domain privateKey w h]
    simp [h]
  · have hd : domain ≠ "" := fun hd => h (Or.inl hd)
    have hk : privateKey ≠ "" := fun hk => h (Or.inr hk)
    rw [NewBackend_ok domain privateKey w hd hk hreg]
    simp [h]

/-- Witness for C4: a non-empty configuration at startup. -/
theorem NewBackend_validates_witness :
    messagesOpts.Name ∉ startWorld.registry ∧
    (((NewBackend "example.org" "key" startWorld).1
        = Outcome.returned (Except.error (Errorf "domain, privateKey must not be empty"))
      ↔ "example.org" = "" ∨ "key" = "") ∧
    (¬ ("example.org" = "" ∨ "key" = "") →
      ∃ b, (NewBackend "example.org" "key" startWorld).1 = Outcome.returned (Except.ok b) ∧
        b.Domain = "example.org" ∧ b.privateKey = "key")) :=
  ⟨by decide, NewBackend_validates "example.org" "key" startWorld (by decide)⟩

/-- C5 (login accepts any credentials): for every backend and all strings `username` and
`password`, `Login` returns no error and a session whose client is built from the
domain and credential of the backend and whose counters are the family of the backend,
and leaves the state as it was; `AnonymousLogin` returns the same. -/
theorem Login_any_credentials (b : Backend) (username password : String) (w : World σ) :
    b.Login username password w
      = (Except.ok
          { mailgunClient := NewMailgun b.Domain b.privateKey
            metricsMailgunMessages := b.metricsMailgunMessages }, w) ∧
    b.AnonymousLogin w = b.Login username password w :=
  ⟨rfl, rfl⟩

/-- C9, as stated, fails: at startup a first `NewBackend` returns a backend, and a second
`NewBackend` in the state it leaves panics; it does not return an error to its caller. -/
theorem NewBackend_twice_not_returned :
    (NewBackend "example.org" "key" startWorld).1
      = Outcome.returned (Except.ok
          { Domain := "example.org", privateKey := "key", metricsMailgunMessages := 0 }) ∧
    (NewBackend "example.org" "key" (NewBackend "example.org" "key" startWorld).2).1
      = Outcome.panicked (Error.AlreadyRegisteredError "mailgun_messages") ∧
    ¬ ∃ e, (NewBackend "example.org" "key" (NewBackend "example.org" "key" startWorld).2).1
      = Outcome.returned (Except.error e) := by
  have h2 : (NewBackend "example.org" "key" (NewBackend "example.org" "key" startWorld).2).1
      = Outcome.panicked (Error.AlreadyRegisteredError "mailgun_messages") := by rfl
  refine ⟨by rfl, h2, ?_⟩
  rintro ⟨e, he⟩
  rw [h2] at he
  cases he

/-- C9, amended (double construction panics): for non-empty domain and credential, in a
state in which the counter family is already registered, `NewBackend` panics with the
already-registered error instead of returning, and the registry is left as it was, so
the family stays registered as often as before. -/
theorem NewBackend_twice_panics (domain privateKey : String) (w : World σ)
    (hd : domain ≠ "") (hk : privateKey ≠ "") (hreg : messagesOpts.Name ∈ w.registry) :
    (NewBackend domain privateKey w).1
      = Outcome.panicked (Error.AlreadyRegisteredError "mailgun_messages") ∧
    (NewBackend domain privateKey w).2.registry = w.registry ∧
    (NewBackend domain privateKey w).2.registry.count messagesOpts.Name
      = w.registry.count messagesOpts.Name := by
  rw [NewBackend_registered domain privateKey w hd hk hreg]
  exact ⟨rfl, rfl, rfl⟩

/-- Witness for C9, amended: the state left by a first `NewBackend` at startup, in which
the family is registered once. -/
theorem NewBackend_twice_panics_witness :
    "other.example" ≠ "" ∧ "key2" ≠ "" ∧
    messagesOpts.Name ∈ (NewBackend "example.org" "key" startWorld).2.registry ∧
    (NewBackend "example.org" "key" startWorld).2.registry.count messagesOpts.Name = 1 ∧
    ((NewBackend "other.example" "key2" (NewBackend "example.org" "key" startWorld).2).1
      = Outcome.panicked (Error.AlreadyRegisteredError "mailgun_messages") ∧
    (NewBackend "other.example" "key2"
        (NewBackend "example.org" "key" startWorld).2).2.registry
      = (NewBackend "example.org" "key" startWorld).2.registry ∧
    (NewBackend "other.example" "key2"
        (NewBackend "example.org" "key" startWorld).2).2.registry.count messagesOpts.Name
      = (NewBackend "example.org" "key" startWorld).2.registry.count messagesOpts.Name) :=
  ⟨by decide, by decide, by decide, by decide,
    NewBackend_twice_panics "other.example" "key2" (NewBackend "example.org" "key" startWorld).2
      (by decide) (by decide) (by decide)⟩

end factory

/-! ## Counter accounting over the life of a process -/

section accounting
variable {σ : Type}

theorem moved_nil (l : String) : moved l [] = 0 := by simp [moved]

theorem moved_append (l : String) (a b : List Call) :
    moved l (a ++ b) = moved l a + moved l b := by
  simp only [moved, List.filter_append, List.length_append]
  split_ifs <;> omega

theorem step_accounts (R : Remote σ) (s : Process σ) (op : Op) (hs : s.Shared) :
    (s.step R op).Shared ∧ (s.step R op).backend = s.backend ∧
    ∃ new, (s.step R op).world.calls = s.world.calls ++ new ∧
      ∀ l, (s.step R op).world.vecs s.backend.metricsMailgunMessages l
        = s.world.vecs s.backend.metricsMailgunMessages l + moved l new := by
  cases op with
  | Login username password =>
    refine ⟨?_, rfl, [], by simp [Process.step, Backend.Login], ?_⟩
    · intro u hu
      simp only [Process.step, Backend.Login, List.mem_append, List.mem_singleton] at hu
      rcases hu with hu | hu
      · exact hs u hu
      · subst hu; rfl
    · intro l; simp [Process.step, Backend.Login, moved_nil]
  | AnonymousLogin =>
    refine ⟨?_, rfl, [], by simp [Process.step, Backend.AnonymousLogin], ?_⟩
    · intro u hu
      simp only [Process.step, Backend.AnonymousLogin, List.mem_append,
        List.mem_singleton] at hu
      rcases hu with hu | hu
      · exact hs u hu
      · subst hu; rfl
    · intro l; simp [Process.step, Backend.AnonymousLogin, moved_nil]
  | Send session from_ to_ r =>
    cases hget : s.sessions[session]? with
    | none =>
      simp only [Process.step, hget]
      exact ⟨hs, trivial, [], by simp, fun l => by simp [moved_nil]⟩
    | some u =>
      simp only [Process.step, hget]
      obtain ⟨new, h1, -, -, -, h5, -, -⟩ := Send_run R u from_ to_ r s.world
      have hu := hs u (List.getElem?_mem hget)
      refine ⟨hs, trivial, new, h1, ?_⟩
      intro l
      rw [h5, hu]
      simp only [moved, true_and]
      omega
  | Logout session =>
    cases hget : s.sessions[session]? with
    | none =>
      simp only [Process.step, hget]
      exact ⟨hs, trivial, [], by simp, fun l => by simp [moved_nil]⟩
    | some u =>
      simp only [Process.step, hget, User.Logout]
      exact ⟨hs, trivial, [], by simp, fun l => by simp [moved_nil]⟩

theorem run_accounts (R : Remote σ) (s : Process σ) (ops : List Op) (hs : s.Shared) :
    (s.run R ops).Shared ∧ (s.run R ops).backend = s.backend ∧
    ∃ new, (s.run R ops).world.calls = s.world.calls ++ new ∧
      ∀ l, (s.run R ops).world.vecs s.backend.metricsMailgunMessages l
        = s.world.vecs s.backend.metricsMailgunMessages l + moved l new := by
  induction ops generalizing s with
  | nil => exact ⟨hs, rfl, [], by simp [Process.run], fun l => by simp [Process.run, moved_nil]⟩
  | cons op ops ih =>
    obtain ⟨hs1, hb1, new1, hc1, hv1⟩ := step_accounts R s op hs
    obtain ⟨hs2, hb2, new2, hc2, hv2⟩ := ih (s.step R op) hs1
    have hrun : s.run R (op :: ops) = (s.step R op).run R ops := rfl
    rw [hrun]
    refine ⟨hs2, hb2.trans hb1, new1 ++ new2, ?_, ?_⟩
    · rw [hc2, hc1, List.append_assoc]
    · intro l
      have := hv2 l
      rw [hb1] at this
      rw [this, hv1 l, moved_append]
      omega

theorem run_append (R : Remote σ) (s : Process σ) (ops ops2 : List Op) :
    s.run R (ops ++ ops2) = (s.run R ops).run R ops2 := by
  simp [Process.run, List.foldl_append]

theorem NewBackend_returned (domain privateKey : String) (w : World σ) (b : Backend)
    (hb : (NewBackend domain privateKey w).1 = Outcome.returned (Except.ok b)) :
    b.metricsMailgunMessages = w.nextVec ∧
    (NewBackend domain privateKey w).2.vecs w.nextVec = (fun _ => 0) := by
  by_cases h : domain = "" ∨ privateKey = ""
  · rw [NewBackend_empty domain privateKey w h] at hb
    cases hb
  · have hd : domain ≠ "" := fun hd => h (Or.inl hd)
    have hk : privateKey ≠ "" := fun hk => h (Or.inr hk)
    by_cases hreg : messagesOpts.Name ∈ w.registry
    · rw [NewBackend_registered domain privateKey w hd hk hreg] at hb
      cases hb
    · rw [NewBackend_ok domain privateKey w hd hk hreg] at hb ⊢
      cases hb
      exact ⟨rfl, by simp⟩

/-- C6 (counter accounting invariant): from the state a successful `NewBackend` leaves,
after every sequence `ops` of `Login`, `AnonymousLogin`, `Send` and `Logout` calls on the
factory and its sessions, the `success` count is the number of delivery calls made since
that came back without error, the `fail` count is the number of those that came back
with an error, so each call moved exactly one of the two counts by one and their sum is
the number of calls made; and no count of the family is lower after any further calls
`ops2` than it was before them. -/
theorem counters_account (R : Remote σ) (domain privateKey : String) (w : World σ)
    (b : Backend) (hb : (NewBackend domain privateKey w).1 = Outcome.returned (Except.ok b))
    (ops ops2 : List Op) :
    ((Process.fresh b (NewBackend domain privateKey w).2).run R ops).world.vecs
        b.metricsMailgunMessages "success"
      = ((callsMade (NewBackend domain privateKey w).2
          ((Process.fresh b (NewBackend domain privateKey w).2).run R ops).world).filter
            Call.succeeded).length ∧
    ((Process.fresh b (NewBackend domain privateKey w).2).run R ops).world.vecs
        b.metricsMailgunMessages "fail"
      = ((callsMade (NewBackend domain privateKey w).2
          ((Process.fresh b (NewBackend domain privateKey w).2).run R ops).world).filter
            Call.failed).length ∧
    ((Process.fresh b (NewBackend domain privateKey w).2).run R ops).world.vecs
        b.metricsMailgunMessages "success"
      + ((Process.fresh b (NewBackend domain privateKey w).2).run R ops).world.vecs
        b.metricsMailgunMessages "fail"
      = (callsMade (NewBackend domain privateKey w).2
          ((Process.fresh b (NewBackend domain privateKey w).2).run R ops).world).length ∧
    (∀ l, ((Process.fresh b (NewBackend domain privateKey w).2).run R ops).world.vecs
        b.metricsMailgunMessages l
      ≤ ((Process.fresh b (NewBackend domain privateKey w).2).run R (ops ++ ops2)).world.vecs
        b.metricsMailgunMessages l) := by
  obtain ⟨hptr, hzero⟩ := NewBackend_returned domain privateKey w b hb
  have hfresh : (Process.fresh b (NewBackend domain privateKey w).2).Shared := by
    intro u hu
    simp [Process.fresh] at hu
  obtain ⟨hs1, hb1, new, hc, hv⟩ :=
    run_accounts R (Process.fresh b (NewBackend domain privateKey w).2) ops hfresh
  have hb0 : (Process.fresh b (NewBackend domain privateKey w).2).backend = b := rfl
  have hw0 : (Process.fresh b (NewBackend domain privateKey w).2).world
      = (NewBackend domain privateKey w).2 := rfl
  replace hc : ((Process.fresh b (NewBackend domain privateKey w).2).run R ops).world.calls
      = (NewBackend domain privateKey w).2.calls ++ new := hc
  replace hv : ∀ l, ((Process.fresh b (NewBackend domain privateKey w).2).run R ops).world.vecs
      b.metricsMailgunMessages l
        = (NewBackend domain privateKey w).2.vecs b.metricsMailgunMessages l + moved l new := hv
  have hnew := callsMade_of_append _ _ _ hc
  have hz : ∀ l, (NewBackend domain privateKey w).2.vecs b.metricsMailgunMessages l = 0 := by
    intro l
    rw [hptr, hzero]
  have hsucc := hv "success"
  have hfail := hv "fail"
  rw [hz] at hsucc hfail
  simp only [moved, Nat.zero_add] at hsucc hfail
  have hsucc2 : ((Process.fresh b (NewBackend domain privateKey w).2).run R ops).world.vecs
      b.metricsMailgunMessages "success" = (new.filter Call.succeeded).length := by
    rw [hsucc]; simp
  have hfail2 : ((Process.fresh b (NewBackend domain privateKey w).2).run R ops).world.vecs
      b.metricsMailgunMessages "fail" = (new.filter Call.failed).length := by
    rw [hfail]; simp
  refine ⟨by rw [hnew]; exact hsucc2, by rw [hnew]; exact hfail2, ?_, ?_⟩
  · rw [hnew, hsucc2, hfail2]
    exact filter_succeeded_add_failed new
  · intro l
    obtain ⟨-, -, new2, -, hv2⟩ :=
      run_accounts R ((Process.fresh b (NewBackend domain privateKey w).2).run R ops) ops2 hs1
    rw [hb1] at hv2
    replace hv2 : ∀ l,
        (((Process.fresh b (NewBackend domain privateKey w).2).run R ops).run R ops2).world.vecs
          b.metricsMailgunMessages l
        = ((Process.fresh b (NewBackend domain privateKey w).2).run R ops).world.vecs
          b.metricsMailgunMessages l + moved l new2 := hv2
    rw [run_append, hv2 l]
    exact Nat.le_add_right _ _

/-- Witness for C6: a process that logs in twice, submits on both sessions against a
service that rejects its second call, logs out, and later submits again. -/
theorem counters_account_witness :
    (NewBackend "example.org" "key" startWorld).1
      = Outcome.returned (Except.ok
          { Domain := "example.org", privateKey := "key", metricsMailgunMessages := 0 }) ∧
    (((Process.fresh
          { Domain := "example.org", privateKey := "key", metricsMailgunMessages := 0 }
          (NewBackend "example.org" "key" startWorld).2).run rejectSecond sampleOps).world.vecs
        0 "success"
      = ((callsMade (NewBackend "example.org" "key" startWorld).2
          ((Process.fresh
            { Domain := "example.org", privateKey := "key", metricsMailgunMessages := 0 }
            (NewBackend "example.org" "key" startWorld).2).run rejectSecond
              sampleOps).world).filter Call.succeeded).length ∧
    ((Process.fresh
          { Domain := "example.org", privateKey := "key", metricsMailgunMessages := 0 }
          (NewBackend "example.org" "key" startWorld).2).run rejectSecond sampleOps).world.vecs
        0 "fail"
      = ((callsMade (NewBackend "example.org" "key" startWorld).2
          ((Process.fresh
            { Domain := "example.org", privateKey := "key", metricsMailgunMessages := 0 }
            (NewBackend "example.org" "key" startWorld).2).run rejectSecond
              sampleOps).world).filter Call.failed).length ∧
    ((Process.fresh
          { Domain := "example.org", privateKey := "key", metricsMailgunMessages := 0 }
          (NewBackend "example.org" "key" startWorld).2).run rejectSecond sampleOps).world.vecs
        0 "success"
      + ((Process.fresh
          { Domain := "example.org", privateKey := "key", metricsMailgunMessages := 0 }
          (NewBackend "example.org" "key" startWorld).2).run rejectSecond sampleOps).world.vecs
        0 "fail"
      = (callsMade (NewBackend "example.org" "key" startWorld).2
          ((Process.fresh
            { Domain := "example.org", privateKey := "key", metricsMailgunMessages := 0 }
            (NewBackend "example.org" "key" startWorld).2).run rejectSecond
              sampleOps).world).length ∧
    (∀ l, ((Process.fresh
          { Domain := "example.org", privateKey := "key", metricsMailgunMessages := 0 }
          (NewBackend "example.org" "key" startWorld).2).run rejectSecond sampleOps).world.vecs
        0 l
      ≤ ((Process.fresh
          { Domain := "example.org", privateKey := "key", metricsMailgunMessages := 0 }
          (NewBackend "example.org" "key" startWorld).2).run rejectSecond
            (sampleOps ++ laterOps)).world.vecs 0 l)) :=
  ⟨by rfl,
    counters_account rejectSecond "example.org" "key" startWorld
      { Domain := "example.org", privateKey := "key", metricsMailgunMessages := 0 } (by rfl)
      sampleOps laterOps⟩

end accounting

end mailgun
